import Mathlib

/-!
Verification of the kdeploy reconciliation engine.

This file embeds, in Lean, the parts of `kdeploy` that decide a deployment:
the diff evaluator (`_specs_equal`, `_has_spec_changed` in `kdeploy/k8s.py`),
the per-resource apply state machine (`_apply_resource`), the multi-document
aggregation (`apply_manifest`), the kubectl fallback (`_apply_via_kubectl`),
the batch loop with its rollout-restart heuristic
(`_deploy_single_app` in `kdeploy/commands/deploy.py`), and the template
context builder (`build_context` in `kdeploy/template.py`).

YAML/JSON-like values are modelled by the nested inductive `Val`.  Python
dictionaries are association lists with unique keys, observed through
`lookup`; scalars (strings, numbers, booleans) are opaque atoms `Val.str`.
-/

namespace Kdeploy

/-- A YAML/JSON-like value: `null`, a scalar atom, a mapping, or a sequence.
Scalars are collapsed to `str` since the engine only ever compares them for
equality. -/
inductive Val where
  | null : Val
  | str : String → Val
  | dict : List (String × Val) → Val
  | arr : List Val → Val
deriving Repr

/-- First value bound to key `k` (Python `d[k]` / `k in d`; real Python dicts
have no duplicate keys). -/
def lookup : List (String × Val) → String → Option Val
  | [], _ => none
  | p :: rest, k => if p.1 = k then some p.2 else lookup rest k

/-- Python truthiness of a value: `None`, `""`, `{}`, `[]` are falsy. -/
def truthy : Val → Bool
  | .null => false
  | .str s => !s.isEmpty
  | .dict l => !l.isEmpty
  | .arr l => !l.isEmpty

mutual

/-- Structural equality of values (entry order significant); used only to
key the modelled cluster store. -/
def valBeq : Val → Val → Bool
  | .null, .null => true
  | .str s, .str t => s == t
  | .dict l, .dict m => pairsBeq l m
  | .arr l, .arr m => valsBeq l m
  | _, _ => false

/-- Structural equality of mapping entries. -/
def pairsBeq : List (String × Val) → List (String × Val) → Bool
  | [], [] => true
  | p :: ps, q :: qs => p.1 == q.1 && valBeq p.2 q.2 && pairsBeq ps qs
  | _, _ => false

/-- Structural equality of value lists. -/
def valsBeq : List Val → List Val → Bool
  | [], [] => true
  | a :: as, b :: bs => valBeq a b && valsBeq as bs
  | _, _ => false

end

instance : BEq Val := ⟨valBeq⟩

/-- Python `d.get(k)` on a mapping; `none` when the receiver is not a
mapping (the engine only reaches such calls on mappings). -/
def Val.get? : Val → String → Option Val
  | .dict l, k => lookup l k
  | _, _ => none

/-- Python `d.get(k, default)`. -/
def Val.getD (v : Val) (k : String) (dflt : Val) : Val :=
  (v.get? k).getD dflt

/-- `p` occurs as a contiguous run inside the second list. -/
def charsInfix (p : List Char) : List Char → Bool
  | [] => p.isEmpty
  | c :: rest => p.isPrefixOf (c :: rest) || charsInfix p rest

/-- Python `sub in s` on strings. -/
def strContains (s sub : String) : Bool :=
  charsInfix sub.toList s.toList

/-- Python `s.lower()` (ASCII; the compared path fragments and kubectl
output are ASCII). -/
def strLower (s : String) : String :=
  ⟨s.toList.map Char.toLower⟩

/-- Python `s.split('/')[0]`: the prefix before the first `'/'` (the whole
string when there is none). -/
def groupOf (s : String) : String :=
  ⟨s.toList.takeWhile (· ≠ '/')⟩

mutual

/-- `KubernetesClient._specs_equal` (k8s.py:405-446): directional subset
comparison.  `None` equals only `None`; a mapping is compared key-by-key,
requiring every desired entry to be present and equal in the live value;
sequences must match in length and are compared element-by-element; scalars
by equality. -/
def specsEqual : Val → Val → Bool
  | .null, c => match c with
    | .null => true
    | _ => false
  | .str s, c => match c with
    | .str t => s == t
    | _ => false
  | .dict l, c => match c with
    | .dict m => specsSub l m
    | _ => false
  | .arr l, c => match c with
    | .arr m => l.length == m.length && specsArr l m
    | _ => false

/-- The `for key, new_value in new_spec.items()` loop of `_specs_equal`. -/
def specsSub : List (String × Val) → List (String × Val) → Bool
  | [], _ => true
  | p :: rest, cur =>
    (match lookup cur p.1 with
     | none => false
     | some w => specsEqual p.2 w) && specsSub rest cur

/-- The `for new_item, current_item in zip(...)` loop of `_specs_equal`. -/
def specsArr : List Val → List Val → Bool
  | a :: as, b :: bs => specsEqual a b && specsArr as bs
  | _, _ => true

end

/-- Every key of `m` occurs in `l` (half of Python mapping equality). -/
def keysSub (m l : List (String × Val)) : Bool :=
  m.all fun p => (lookup l p.1).isSome

mutual

/-- Python `==` on values (used by `_has_spec_changed` for the `data` fields
of ConfigMaps/Secrets): mappings are equal when they bind the same keys to
equal values, irrespective of entry order; sequences elementwise. -/
def pyEq : Val → Val → Bool
  | .null, c => match c with
    | .null => true
    | _ => false
  | .str s, c => match c with
    | .str t => s == t
    | _ => false
  | .dict l, c => match c with
    | .dict m => pyDictSub l m && keysSub m l
    | _ => false
  | .arr l, c => match c with
    | .arr m => pyArrEq l m
    | _ => false

/-- Every entry of the first mapping is bound equally in the second. -/
def pyDictSub : List (String × Val) → List (String × Val) → Bool
  | [], _ => true
  | p :: rest, cur =>
    (match lookup cur p.1 with
     | none => false
     | some w => pyEq p.2 w) && pyDictSub rest cur

/-- Python `==` on sequences: same length, equal elementwise. -/
def pyArrEq : List Val → List Val → Bool
  | [], m => m.isEmpty
  | _ :: _, [] => false
  | a :: as, b :: bs => pyEq a b && pyArrEq as bs

end

/-- Modelled from the spec (§4.3 Diff Evaluator): "every key present in
`desired.spec` must exist in `live.spec` with an equal value (maps compared
key-by-key, lists compared element-by-element and must match length and
order); keys present only in `live.spec` do not cause a mismatch.
`None`/absent on both sides is equal; `None` vs. present is unequal."
The first argument is the desired value, the second the live value. -/
inductive SubsetEq : Val → Val → Prop where
  | null : SubsetEq .null .null
  | prim (s : String) : SubsetEq (.str s) (.str s)
  | dict (new cur : List (String × Val))
      (hk : ∀ p ∈ new, (lookup cur p.1).isSome = true)
      (h : ∀ p ∈ new, ∀ w, lookup cur p.1 = some w → SubsetEq p.2 w) :
      SubsetEq (.dict new) (.dict cur)
  | arr (new cur : List Val) (hlen : new.length = cur.length)
      (h : ∀ p ∈ new.zip cur, SubsetEq p.1 p.2) :
      SubsetEq (.arr new) (.arr cur)

/-- The dict loop of `_specs_equal` realises the spec's key-by-key clause,
given the equivalence for the entry values. -/
theorem specsSub_iff (l m : List (String × Val))
    (ih : ∀ p ∈ l, ∀ c, specsEqual p.2 c = true ↔ SubsetEq p.2 c) :
    specsSub l m = true ↔ ∀ p ∈ l, ∃ w, lookup m p.1 = some w ∧ SubsetEq p.2 w := by
  induction l with
  | nil => simp [specsSub]
  | cons p rest ihl =>
    have ihp := ih p (by simp)
    have ihr := ihl fun q hq c => ih q (by simp [hq]) c
    simp only [specsSub, Bool.and_eq_true]
    constructor
    · rintro ⟨h1, h2⟩ q hq
      rcases List.mem_cons.mp hq with rfl | hq'
      · cases hl : lookup m q.1 with
        | none => rw [hl] at h1; exact absurd h1 (by simp)
        | some w =>
          rw [hl] at h1
          exact ⟨w, rfl, (ihp w).mp h1⟩
      · exact ihr.mp h2 q hq'
    · intro h
      refine ⟨?_, ihr.mpr fun q hq => h q (List.mem_cons_of_mem _ hq)⟩
      obtain ⟨w, hw, hsub⟩ := h p (by simp)
      rw [hw]
      exact (ihp w).mpr hsub

/-- The zip loop of `_specs_equal` realises the spec's element-by-element
clause, given the equivalence for the elements. -/
theorem specsArr_iff (l : List Val)
    (ih : ∀ a ∈ l, ∀ c, specsEqual a c = true ↔ SubsetEq a c) :
    ∀ m, specsArr l m = true ↔ ∀ p ∈ l.zip m, SubsetEq p.1 p.2 := by
  induction l with
  | nil => intro m; simp [specsArr]
  | cons a as ihl =>
    intro m
    cases m with
    | nil => simp [specsArr]
    | cons b bs =>
      have iha := ih a (by simp)
      have ihr := ihl (fun q hq c => ih q (by simp [hq]) c) bs
      simp only [specsArr, Bool.and_eq_true, List.zip_cons_cons, List.mem_cons]
      constructor
      · rintro ⟨h1, h2⟩ q hq
        rcases hq with rfl | hq'
        · exact (iha b).mp h1
        · exact ihr.mp h2 q hq'
      · intro h
        exact ⟨(iha b).mpr (h (a, b) (Or.inl rfl)),
               ihr.mpr fun q hq => h q (Or.inr hq)⟩

theorem specsEqual_iff_aux :
    ∀ n, ∀ d c : Val, sizeOf d ≤ n → (specsEqual d c = true ↔ SubsetEq d c) := by
  intro n
  induction n with
  | zero =>
    intro d c hd
    exact absurd hd (by cases d <;> simp)
  | succ n ih =>
    intro d c hd
    cases d with
    | null =>
      cases c with
      | null => simpa [specsEqual] using SubsetEq.null
      | str s => simp only [specsEqual]; simp; exact fun h => nomatch h
      | dict m => simp only [specsEqual]; simp; exact fun h => nomatch h
      | arr m => simp only [specsEqual]; simp; exact fun h => nomatch h
    | str s =>
      cases c with
      | null => simp only [specsEqual]; simp; exact fun h => nomatch h
      | str t =>
        simp only [specsEqual, beq_iff_eq]
        constructor
        · rintro rfl; exact .prim s
        · rintro h; cases h; rfl
      | dict m => simp only [specsEqual]; simp; exact fun h => nomatch h
      | arr m => simp only [specsEqual]; simp; exact fun h => nomatch h
    | dict l =>
      have hsize : ∀ p ∈ l, sizeOf p.2 ≤ n := by
        intro p hp
        have h1 := List.sizeOf_lt_of_mem hp
        have h2 : sizeOf (Val.dict l) = 1 + sizeOf l := by simp
        obtain ⟨k, v⟩ := p
        simp only [Prod.mk.sizeOf_spec] at h1
        simp only [h2] at hd
        show sizeOf v ≤ n
        omega
      have ihs : ∀ p ∈ l, ∀ c', specsEqual p.2 c' = true ↔ SubsetEq p.2 c' :=
        fun p hp c' => ih p.2 c' (hsize p hp)
      cases c with
      | null => simp only [specsEqual]; simp; exact fun h => nomatch h
      | str t => simp only [specsEqual]; simp; exact fun h => nomatch h
      | arr m => simp only [specsEqual]; simp; exact fun h => nomatch h
      | dict m =>
        simp only [specsEqual]
        rw [specsSub_iff l m ihs]
        constructor
        · intro h
          refine .dict l m (fun p hp => ?_) (fun p hp w hw => ?_)
          · obtain ⟨w, hw, _⟩ := h p hp
            simp [hw]
          · obtain ⟨w', hw', hsub⟩ := h p hp
            rw [hw'] at hw
            exact (Option.some.inj hw) ▸ hsub
        · intro h p hp
          cases h with
          | dict _ _ hk hsub =>
            obtain ⟨w, hw⟩ := Option.isSome_iff_exists.mp (hk p hp)
            exact ⟨w, hw, hsub p hp w hw⟩
    | arr l =>
      have hsize : ∀ a ∈ l, sizeOf a ≤ n := by
        intro a ha
        have h1 := List.sizeOf_lt_of_mem ha
        have h2 : sizeOf (Val.arr l) = 1 + sizeOf l := by simp
        simp only [h2] at hd
        omega
      have ihs : ∀ a ∈ l, ∀ c', specsEqual a c' = true ↔ SubsetEq a c' :=
        fun a ha c' => ih a c' (hsize a ha)
      cases c with
      | null => simp only [specsEqual]; simp; exact fun h => nomatch h
      | str t => simp only [specsEqual]; simp; exact fun h => nomatch h
      | dict m => simp only [specsEqual]; simp; exact fun h => nomatch h
      | arr m =>
        simp only [specsEqual, Bool.and_eq_true, beq_iff_eq]
        rw [specsArr_iff l ihs m]
        constructor
        · rintro ⟨hlen, h⟩; exact .arr l m hlen h
        · rintro (_ | _ | _ | ⟨_, _, hlen, h⟩); exact ⟨hlen, h⟩

/-- `_specs_equal` returns true exactly on the spec's subset-equality
relation between the desired and live values. -/
theorem specsEqual_iff_subsetEq (d c : Val) :
    specsEqual d c = true ↔ SubsetEq d c :=
  specsEqual_iff_aux (sizeOf d) d c le_rfl

/-- The resource kinds with typed read/create/patch adapters
(the dispatch branches of `_apply_resource`, `_resource_exists` and
`_has_spec_changed` in k8s.py). -/
def typedKinds : List String :=
  ["Deployment", "Service", "ConfigMap", "Secret", "Ingress", "PodDisruptionBudget"]

/-- `KubernetesClient._has_spec_changed` (k8s.py:343-403), with the typed
read of the live object modelled by the `live` argument (`none` = the read
found nothing or failed, which the code treats as changed).  For kinds
outside the dispatch table the code returns `True` before any comparison.
For ConfigMap/Secret only the `data` fields are compared (Python `==`);
otherwise the `spec` fields are compared with `_specs_equal`. -/
def hasSpecChangedOn (kind : String) (newManifest : Val) (live : Option Val) : Bool :=
  if kind ∈ typedKinds then
    match live with
    | none => true
    | some currentDict =>
      if kind == "ConfigMap" || kind == "Secret" then
        !pyEq (newManifest.getD "data" (.dict [])) (currentDict.getD "data" (.dict []))
      else
        !specsEqual (newManifest.getD "spec" (.dict [])) (currentDict.getD "spec" (.dict []))
  else true

/-- Result of one Kubernetes API call (create or patch): success, an
`ApiException` with an HTTP status, or another raised exception. -/
inductive ApiResult where
  | ok
  | apiErr (status : Nat) (reason : String)
  | exc (msg : String)
deriving Repr

/-- Outcome of the dynamic-client tier of `_apply_custom_resource`
(k8s.py:448-501): the schema lookup raised, or the resource was
found/absent and the subsequent patch/create succeeded or raised. -/
inductive DynTier where
  | noSchema
  | found (opOk : Bool)
  | missing (opOk : Bool)
deriving Repr

/-- Outcome of the external `kubectl apply` subprocess in
`_apply_via_kubectl` (k8s.py:503-552): it completed with a return code and
captured output, or it exceeded the 30-second timeout
(`subprocess.TimeoutExpired`). -/
inductive ProcOutcome where
  | completed (returncode : Int) (stdout : String) (stderr : String)
  | timeoutExpired
deriving Repr

/-- Result of `_apply_via_kubectl`: the (status, message) pair it returns,
plus whether the `os.unlink(temp_file)` statement was reached. -/
structure KubectlRun where
  status : String
  message : String
  tempFileRemoved : Bool
deriving Repr

/-- `KubernetesClient._apply_via_kubectl` (k8s.py:503-552).  The manifest is
dumped to a temporary file, `kubectl apply` runs with `timeout=30`, the temp
file is unlinked, and the textual output is classified.  A `TimeoutExpired`
(or any other exception) is caught by the trailing `except` and turned into
an error result — but the unlink statement sits before that handler, so it
is skipped on that path. -/
def applyViaKubectl (proc : ProcOutcome) (kind : String) : KubectlRun :=
  match proc with
  | .completed rc out err =>
    if rc == 0 then
      let o := strLower out
      if strContains o "created" then ⟨"created", "created", true⟩
      else if strContains o "configured" then ⟨"configured", "configured", true⟩
      else if strContains o "unchanged" then ⟨"unchanged", "unchanged", true⟩
      else ⟨"configured", "applied", true⟩
    else ⟨"error", err, true⟩
  | .timeoutExpired =>
    -- `except Exception as e: return "error", f"Failed to apply {kind}: {str(e)}"`
    ⟨"error", "Failed to apply " ++ kind ++ ": timed out after 30 seconds", false⟩

/-- `KubernetesClient._apply_custom_resource` (k8s.py:448-501): patch when
the dynamic get finds the resource, create otherwise; any exception in the
dynamic tier falls through to `_apply_via_kubectl`. -/
def applyCustomResource (dyn : DynTier) (proc : ProcOutcome) (kind : String) :
    String × String :=
  match dyn with
  | .found true => ("configured", "configured")
  | .missing true => ("created", "created")
  | .found false | .missing false | .noSchema =>
    let r := applyViaKubectl proc kind
    (r.status, r.message)

/-- The cluster objects visible to the typed readers, keyed by
(kind, metadata.name); the stored value is the serialized live object
(`sanitize_for_serialization`). -/
def clusterLookup (cluster : List ((String × Val) × Val)) (kind : String) (name : Val) :
    Option Val :=
  (cluster.find? fun e => e.1.1 == kind && e.1.2 == name).map (·.2)

/-- The server-side collaborators of one `_apply_resource` call: the live
objects the typed reads see, the results of the typed create and patch
calls, and the behaviour of the two fallback tiers. -/
structure ApiEnv where
  cluster : List ((String × Val) × Val)
  createRes : ApiResult
  patchRes : ApiResult
  dyn : DynTier
  proc : ProcOutcome

/-- Translate a typed create call's `ApiResult` as `_apply_resource`'s
`except` clauses do (k8s.py:305-311): a 409 conflict is `unchanged`. -/
def createOutcome : ApiResult → String × String
  | .ok => ("created", "created")
  | .apiErr 409 _ => ("unchanged", "unchanged")
  | .apiErr _ reason => ("error", "API error: " ++ reason)
  | .exc msg => ("error", msg)

/-- Translate a typed patch call's `ApiResult`; the same `except` clauses
apply (k8s.py:305-311). -/
def patchOutcome : ApiResult → String × String
  | .ok => ("configured", "configured")
  | .apiErr 409 _ => ("unchanged", "unchanged")
  | .apiErr _ reason => ("error", "API error: " ++ reason)
  | .exc msg => ("error", msg)

/-- `_resource_exists` (k8s.py:313-341): kinds outside the dispatch table
report `False` without any API read; otherwise a 404 means absent. -/
def resourceExists (cluster : List ((String × Val) × Val)) (kind name : Val) : Bool :=
  match kind with
  | .str k => k ∈ typedKinds && (clusterLookup cluster k name).isSome
  | _ => false

/-- The typed-registry branch of `_apply_resource` (k8s.py:199-311):
exists-check, then diff-check and patch, or create. -/
def typedApply (env : ApiEnv) (kind name : Val) (manifest : Val) : String × String :=
  match kind with
  | .str k =>
    if resourceExists env.cluster kind name then
      let changed := hasSpecChangedOn k manifest (clusterLookup env.cluster k name)
      if !changed then ("unchanged", "unchanged")
      else if k ∈ typedKinds then patchOutcome env.patchRes
      else ("error", "Unsupported resource kind for update: " ++ k)
    else
      if k ∈ typedKinds then createOutcome env.createRes
      else ("error", "Unsupported resource kind for create: " ++ k)
  | _ =>
    -- a non-string truthy kind matches no dispatch branch: exists is False
    -- and the create dispatch falls through to the unsupported branch
    ("error", "Unsupported resource kind for create")

/-- The API groups with a typed client in `_apply_resource`
(k8s.py:179-197); anything else goes to `_apply_custom_resource`. -/
def typedGroups : List String := ["apps", "batch", "networking.k8s.io", "policy"]

/-- `KubernetesClient._apply_resource` (k8s.py:154-311) for a mapping
document.  `Except.error` models a Python exception escaping the function
(only possible from `metadata.get` / the `in` test on non-string values
before or outside the guarded region).  All server interaction is read from
`env`; an invalid manifest returns the error outcome before any of it is
consulted. -/
def applyResource (env : ApiEnv) (manifest : Val) : Except String (String × String) :=
  let kind := manifest.getD "kind" .null
  let apiVersion := manifest.getD "apiVersion" .null
  match manifest.getD "metadata" (.dict []) with
  | .dict ml =>
    let name := (lookup ml "name").getD .null
    if !(truthy kind && truthy apiVersion && truthy name) then
      .ok ("error", "Invalid manifest: missing required fields")
    else
      match apiVersion with
      | .str av =>
        if !strContains av "/" || groupOf av ∈ typedGroups then
          .ok (typedApply env kind name manifest)
        else
          .ok (applyCustomResource env.dyn env.proc
            (match kind with | .str k => k | _ => "Unknown"))
      | _ =>
        -- `'/' not in api_version` raises TypeError on a non-string, caught
        -- by the trailing `except Exception` into an error outcome
        .ok ("error", "argument of type is not iterable")
  | _ => .error "AttributeError: metadata is not a mapping"

/-- The per-document collection loop of `apply_manifest` (k8s.py:114-136):
falsy documents are skipped; for the rest, kind and name are extracted with
defaults and `_apply_resource` is invoked.  A non-mapping document or
non-mapping metadata raises (`Except.error`), as does `_apply_resource`
itself. -/
def gatherResults (ap : Val → Except String (String × String)) :
    List Val → Except String (List (Val × Val × (String × String)))
  | [] => .ok []
  | d :: rest =>
    if !truthy d then gatherResults ap rest
    else
      match d with
      | .dict dl =>
        let kind := (lookup dl "kind").getD (.str "Unknown")
        match (lookup dl "metadata").getD (.dict []) with
        | .dict ml =>
          let name := (lookup ml "name").getD (.str "unknown")
          match ap d with
          | .error e => .error e
          | .ok r =>
            match gatherResults ap rest with
            | .error e => .error e
            | .ok rs => .ok ((kind, name, r) :: rs)
        | _ => .error "AttributeError: metadata is not a mapping"
      | _ => .error "AttributeError: document is not a mapping"

/-- The summarisation step of `apply_manifest` (k8s.py:137-152): a single
result reports its own status; any other count reports the aggregate status
`"configured"`.  Exceptions become a `KubernetesError`
(`Except.error`).  The summary message text is abbreviated here; no claim
concerns it. -/
def applyManifest (ap : Val → Except String (String × String)) (docs : List Val) :
    Except String (String × String) :=
  match gatherResults ap docs with
  | .error e => .error ("Failed to apply manifest: " ++ e)
  | .ok results =>
    match results with
    | [(_, _, (status, msg))] => .ok (status, msg)
    | _ => .ok ("configured", "Applied " ++ toString results.length ++ " resources")

/-- `stats[status] = stats.get(status, 0) + 1` on the stats dictionary of
`_deploy_single_app` (deploy.py:242). -/
def bump (stats : String → Nat) (status : String) : String → Nat :=
  fun k => if k == status then stats status + 1 else stats k

/-- The rollout-trigger path test of `_deploy_single_app` (deploy.py:249):
`'configmap' in str(rel_path).lower() or 'secret' in str(rel_path).lower()`. -/
def pathTriggersRollout (relPath : String) : Bool :=
  strContains (strLower relPath) "configmap" || strContains (strLower relPath) "secret"

/-- The apply loop of `_deploy_single_app` (deploy.py:235-258) over the
per-file outcomes: an exception from `apply_manifest` is caught and counted
under `error`; an ordinary result is counted under its status, and a
`configured` file whose path names a ConfigMap or Secret arms the rollout
flag. -/
def fileStep (acc : (String → Nat) × Bool)
    (pr : String × Except String (String × String)) : (String → Nat) × Bool :=
  match pr.2 with
  | .error _ => (bump acc.1 "error", acc.2)
  | .ok (st, _) =>
    (bump acc.1 st, acc.2 || (st == "configured" && pathTriggersRollout pr.1))

/-- The whole apply loop: fold `fileStep` over the batch, starting from
empty stats and an unarmed rollout flag. -/
def processFiles (outcomes : List (String × Except String (String × String))) :
    (String → Nat) × Bool :=
  outcomes.foldl fileStep (fun _ => 0, false)

/-- One rendered file of a batch: its relative output path, the status its
apply reported, and its parsed documents (re-parsed by the rollout scan). -/
structure FileEntry where
  path : String
  status : String
  docs : List Val
deriving Repr

/-- `needs_rollout` after the apply loop: some file ended `configured` and
its path contains "configmap" or "secret" (deploy.py:247-250). -/
def needsRollout (batch : List FileEntry) : Bool :=
  batch.any fun e => e.status == "configured" && pathTriggersRollout e.path

/-- The inner document scan of the rollout-restart block
(deploy.py:275-282): each truthy Deployment document contributes its
`metadata.name`; `doc['metadata']['name']` on a document lacking it raises,
and the surrounding `except Exception: pass` abandons the rest of this
file's documents, as does a truthy non-mapping document. -/
def restartNamesForDocs : List Val → List Val
  | [] => []
  | d :: rest =>
    match d with
    | .dict dl =>
      if (lookup dl "kind").getD .null == Val.str "Deployment" then
        match (lookup dl "metadata").getD .null |>.get? "name" with
        | some n => n :: restartNamesForDocs rest
        | none => []
      else restartNamesForDocs rest
    | _ => if truthy d then [] else restartNamesForDocs rest

/-- The rollout-restart block of `_deploy_single_app` (deploy.py:269-282):
when the flag is armed, only files whose path contains "deployment"
(case-insensitively) are scanned, and one `rollout_restart` patch is issued
per extracted Deployment name.  Returns the names patched, in order. -/
def rolloutCalls (batch : List FileEntry) : List Val :=
  if needsRollout batch then
    (batch.filter fun e => strContains (strLower e.path) "deployment").flatMap
      fun e => restartNamesForDocs e.docs
  else []

/-- The inputs `TemplateEngine.build_context` (template.py:108-181) reads
from its configuration collaborator. -/
structure AppInputs where
  appName : String
  envName : String
  /-- `config.get_namespace()`; Python `None` is `Val.null`. -/
  envNamespace : Val
  /-- `config.get_app_config(app_name)`: the app's config mapping
  (empty when no config file exists). -/
  appConfig : List (String × Val)
  /-- `config._secrets.get(app_name, {})`. -/
  appSecrets : Val
  /-- `config._secrets.get("global", {})`. -/
  globalSecrets : Val
  /-- `config.get("environments.<env>", {})` as a mapping. -/
  envConfig : List (String × Val)

/-- Python `dst[k] = v` on a mapping modelled as an association list. -/
def dset (l : List (String × Val)) (k : String) (v : Val) : List (String × Val) :=
  if (lookup l k).isSome then
    l.map fun p => if p.1 = k then (k, v) else p
  else l ++ [(k, v)]

/-- Python `dst.update(src)` on mappings. -/
def dictUpdate (dst src : List (String × Val)) : List (String × Val) :=
  src.foldl (fun acc p => dset acc p.1 p.2) dst

/-- The app mapping after lines 132-141 of template.py: `{"name": app_name}`
updated with the flat app config, then with its nested `app` block when that
block is a mapping (Python raises on a non-mapping `app` block; theorems
only consider mappings). -/
def mergedAppDict (inp : AppInputs) : List (String × Val) :=
  if inp.appConfig.isEmpty then [("name", .str inp.appName)]
  else
    let flat := dictUpdate [("name", .str inp.appName)] inp.appConfig
    match lookup inp.appConfig "app" with
    | some (.dict nested) => dictUpdate flat nested
    | _ => flat

/-- `TemplateEngine.build_context` (template.py:108-181).  The reserved keys
are installed, the app config is merged under `config` and flattened into
`app`, the namespace is resolved bidirectionally (app overrides environment,
otherwise the environment namespace is reflected into `app.namespace`),
the optional component config and the secrets are attached, and finally
environment keys are copied only when not already present. -/
def buildContext (inp : AppInputs) (component : Option Val) : List (String × Val) :=
  let cfgVal : Val := if inp.appConfig.isEmpty then .dict [] else .dict inp.appConfig
  let app1 := mergedAppDict inp
  let (nsVal, app2) :=
    match lookup app1 "namespace" with
    | some v => (v, app1)
    | none => (inp.envNamespace, dset app1 "namespace" inp.envNamespace)
  let ctx0 := [("app", Val.dict app2), ("env", Val.str inp.envName),
               ("namespace", nsVal), ("global", inp.globalSecrets),
               ("config", cfgVal), ("secret", inp.appSecrets)]
  let ctx1 := match component with
    | some comp => ctx0 ++ [("component", comp)]
    | none => ctx0
  inp.envConfig.foldl
    (fun acc p => if (lookup acc p.1).isSome then acc else acc ++ [p]) ctx1

/-! ### Helper lemmas -/

theorem lookup_append (l l' : List (String × Val)) (k : String) :
    lookup (l ++ l') k =
      match lookup l k with
      | some v => some v
      | none => lookup l' k := by
  induction l with
  | nil => simp [lookup]
  | cons p rest ih =>
    by_cases h : p.1 = k
    · simp [lookup, h]
    · simp [lookup, h, ih]

theorem lookup_dset_self (l : List (String × Val)) (k : String) (v : Val) :
    lookup (dset l k v) k = some v := by
  unfold dset
  by_cases h : (lookup l k).isSome
  · rw [if_pos h]
    induction l with
    | nil => simp [lookup] at h
    | cons p rest ih =>
      by_cases hp : p.1 = k
      · simp [lookup, hp]
      · simp only [lookup, hp, if_neg hp, if_false] at h
        simp only [List.map_cons]
        rw [if_neg hp]
        simpa [lookup, hp] using ih h
  · rw [if_neg h]
    rw [lookup_append]
    cases hl : lookup l k with
    | some w => rw [hl] at h; simp at h
    | none => simp [lookup]

/-- `hasSpecChangedOn` for the generic (non-ConfigMap/Secret) typed kinds is
the negation of `_specs_equal` on the `spec` fields. -/
theorem hasSpecChangedOn_generic (k : String) (h1 : k ∈ typedKinds)
    (h2 : (k == "ConfigMap" || k == "Secret") = false) (d l : Val) :
    hasSpecChangedOn k d (some l) =
      !specsEqual (d.getD "spec" (.dict [])) (l.getD "spec" (.dict [])) := by
  unfold hasSpecChangedOn
  rw [if_pos h1]
  simp [h2]

/-- `hasSpecChangedOn` for ConfigMap/Secret is the negation of Python `==`
on the `data` fields. -/
theorem hasSpecChangedOn_data (k : String)
    (h2 : (k == "ConfigMap" || k == "Secret") = true) (d l : Val) :
    hasSpecChangedOn k d (some l) =
      !pyEq (d.getD "data" (.dict [])) (l.getD "data" (.dict [])) := by
  have h1 : k ∈ typedKinds := by
    rcases Bool.or_eq_true_iff.mp h2 with h | h <;>
      simp only [beq_iff_eq] at h <;> subst h <;> simp [typedKinds]
  unfold hasSpecChangedOn
  rw [if_pos h1]
  simp [h2]

/-! ### Claims -/

/-- **C1, counterexample.**  The claim quantifies over "every kind other
than ConfigMap and Secret", but `_has_spec_changed` returns `True` for any
kind outside its dispatch table before comparing anything: for kind
`"CronJob"` with identical (hence subset-equal) empty specs the evaluator
still reports changed. -/
theorem C1_counterexample :
    ¬ (hasSpecChangedOn "CronJob" (Val.dict []) (some (Val.dict [])) = false ↔
       SubsetEq ((Val.dict []).getD "spec" (Val.dict []))
                ((Val.dict []).getD "spec" (Val.dict []))) := by
  intro h
  have hsub : SubsetEq (Val.dict []) (Val.dict []) :=
    .dict [] [] (by simp) (by simp)
  exact absurd (h.mpr hsub) (by decide)

/-- **C1 (amended).**  For the typed kinds other than ConfigMap and Secret —
Deployment, Service, Ingress, PodDisruptionBudget — the diff evaluator
reports unchanged exactly when `desired.spec` is subset-equal to
`live.spec` in the spec's sense: desired keys must exist with equal values
in the live map, lists must match in length and order, live-only keys are
ignored, `None` equals only `None`.  (For kinds outside the dispatch table
the evaluator returns changed unconditionally.) -/
theorem C1_subset_diff (k : String)
    (hk : k ∈ ["Deployment", "Service", "Ingress", "PodDisruptionBudget"])
    (d l : Val) :
    hasSpecChangedOn k d (some l) = false ↔
      SubsetEq (d.getD "spec" (.dict [])) (l.getD "spec" (.dict [])) := by
  have h1 : k ∈ typedKinds := by fin_cases hk <;> simp [typedKinds]
  have h2 : (k == "ConfigMap" || k == "Secret") = false := by
    fin_cases hk <;> rfl
  rw [hasSpecChangedOn_generic k h1 h2, Bool.not_eq_false']
  exact specsEqual_iff_subsetEq _ _

/-- **C1 witness**: a Deployment whose desired spec is empty is unchanged
against a live spec with server-added keys. -/
theorem C1_subset_diff_witness :
    hasSpecChangedOn "Deployment"
      (Val.dict [("spec", Val.dict [])])
      (some (Val.dict [("spec", Val.dict [("serverAdded", Val.str "x")])])) = false :=
  (C1_subset_diff "Deployment" (by simp) _ _).mpr
    (by exact .dict [] [("serverAdded", Val.str "x")] (by simp) (by simp))

/-- Unfolding of `applyResource` to `typedApply` for a valid manifest whose
apiVersion routes to a typed client. -/
theorem applyResource_typed (env : ApiEnv) (dl ml : List (String × Val))
    (k av : String) (nm : Val)
    (hkind : lookup dl "kind" = some (.str k)) (hkt : truthy (.str k) = true)
    (hav : lookup dl "apiVersion" = some (.str av)) (havt : truthy (.str av) = true)
    (hroute : (!strContains av "/" || decide (groupOf av ∈ typedGroups)) = true)
    (hmeta : lookup dl "metadata" = some (.dict ml))
    (hname : lookup ml "name" = some nm) (hnm : truthy nm = true) :
    applyResource env (.dict dl) = .ok (typedApply env (.str k) nm (.dict dl)) := by
  unfold applyResource
  simp only [Val.getD, Val.get?, hkind, hav, hmeta, hname, Option.getD_some,
    hkt, hnm, havt, Bool.and_self, Bool.not_true, Bool.false_eq_true,
    if_false, hroute, if_true]

/-- `typedApply` on an existing, diff-unchanged resource reports unchanged. -/
theorem typedApply_unchanged (env : ApiEnv) (k : String) (nm m cur : Val)
    (hk : k ∈ typedKinds) (hlive : clusterLookup env.cluster k nm = some cur)
    (hch : hasSpecChangedOn k m (some cur) = false) :
    typedApply env (.str k) nm m = ("unchanged", "unchanged") := by
  have hex : resourceExists env.cluster (.str k) nm = true := by
    simp [resourceExists, hlive, hk]
  unfold typedApply
  simp [hex, hlive, hch]

/-- `typedApply` on an absent typed kind performs the create call and
translates its result. -/
theorem typedApply_create (env : ApiEnv) (k : String) (nm m : Val)
    (hk : k ∈ typedKinds) (habs : clusterLookup env.cluster k nm = none) :
    typedApply env (.str k) nm m = createOutcome env.createRes := by
  have hex : resourceExists env.cluster (.str k) nm = false := by
    simp [resourceExists, habs]
  unfold typedApply
  simp [hex, hk]

/-- **C2.**  For ConfigMap/Secret the diff evaluator reads only the `data`
fields: (1) replacing desired or live by any object with the same `data`
leaves the verdict unchanged; (2) equal `data` (Python `==`) forces
changed = false; (3) hence, with the live object in the cluster, the apply
of such a resource ends `unchanged` — never `configured`. -/
theorem C2_data_only (k : String) (hk : k = "ConfigMap" ∨ k = "Secret")
    (d d' l l' : Val)
    (hd : d.getD "data" (.dict []) = d'.getD "data" (.dict []))
    (hl : l.getD "data" (.dict []) = l'.getD "data" (.dict [])) :
    hasSpecChangedOn k d (some l) = hasSpecChangedOn k d' (some l') ∧
    (pyEq (d.getD "data" (.dict [])) (l.getD "data" (.dict [])) = true →
      hasSpecChangedOn k d (some l) = false) ∧
    (∀ (env : ApiEnv) (nm : Val),
      clusterLookup env.cluster k nm = some l →
      pyEq (d.getD "data" (.dict [])) (l.getD "data" (.dict [])) = true →
      typedApply env (.str k) nm d = ("unchanged", "unchanged")) := by
  have hbeq : (k == "ConfigMap" || k == "Secret") = true := by
    rcases hk with rfl | rfl <;> rfl
  have hkt : k ∈ typedKinds := by
    rcases hk with rfl | rfl <;> simp [typedKinds]
  have hchange : ∀ hdata : pyEq (d.getD "data" (.dict []))
      (l.getD "data" (.dict [])) = true, hasSpecChangedOn k d (some l) = false := by
    intro hdata
    rw [hasSpecChangedOn_data k hbeq, hdata]
    rfl
  refine ⟨?_, hchange, ?_⟩
  · rw [hasSpecChangedOn_data k hbeq, hasSpecChangedOn_data k hbeq, hd, hl]
  · intro env nm hlive hdata
    exact typedApply_unchanged env k nm d l hkt hlive (hchange hdata)

/-- Desired ConfigMap manifest used by the C2 witness. -/
def cmDesired : Val :=
  .dict [("kind", .str "ConfigMap"), ("apiVersion", .str "v1"),
         ("metadata", .dict [("name", .str "cm")]),
         ("data", .dict [("k", .str "v")])]

/-- Live ConfigMap differing from `cmDesired` only by an annotation. -/
def cmLiveAnnotated : Val :=
  .dict [("kind", .str "ConfigMap"),
         ("metadata", .dict [("name", .str "cm"),
                             ("annotations", .dict [("touched", .str "yes")])]),
         ("data", .dict [("k", .str "v")])]

/-- **C2 witness**: an annotation-only difference on a live ConfigMap does
not produce `configured`. -/
theorem C2_data_only_witness :
    typedApply ⟨[(("ConfigMap", .str "cm"), cmLiveAnnotated)], .ok, .ok,
        .noSchema, .timeoutExpired⟩ (.str "ConfigMap") (.str "cm") cmDesired =
      ("unchanged", "unchanged") :=
  (C2_data_only "ConfigMap" (Or.inl rfl) cmDesired cmDesired
      cmLiveAnnotated cmLiveAnnotated rfl rfl).2.2
    ⟨[(("ConfigMap", .str "cm"), cmLiveAnnotated)], .ok, .ok,
        .noSchema, .timeoutExpired⟩ (.str "cm") rfl (by rfl)

/-- **C5.**  A create that races another actor and hits an HTTP 409
conflict is recorded as `unchanged`, not as an error. -/
theorem C5_create_conflict_unchanged (env : ApiEnv) (dl ml : List (String × Val))
    (k av : String) (nm : Val) (reason : String)
    (hkind : lookup dl "kind" = some (.str k)) (hk : k ∈ typedKinds)
    (hav : lookup dl "apiVersion" = some (.str av)) (havt : truthy (.str av) = true)
    (hroute : (!strContains av "/" || decide (groupOf av ∈ typedGroups)) = true)
    (hmeta : lookup dl "metadata" = some (.dict ml))
    (hname : lookup ml "name" = some nm) (hnm : truthy nm = true)
    (habs : clusterLookup env.cluster k nm = none)
    (h409 : env.createRes = .apiErr 409 reason) :
    applyResource env (.dict dl) = .ok ("unchanged", "unchanged") := by
  have hkt : truthy (.str k) = true := by fin_cases hk <;> rfl
  rw [applyResource_typed env dl ml k av nm hkind hkt hav havt hroute hmeta hname hnm,
    typedApply_create env k nm _ hk habs, h409]
  rfl

/-- **C5 witness**: a Deployment create answered with 409. -/
theorem C5_create_conflict_unchanged_witness :
    applyResource ⟨[], .apiErr 409 "Conflict", .ok, .noSchema, .timeoutExpired⟩
      (.dict [("kind", .str "Deployment"), ("apiVersion", .str "apps/v1"),
              ("metadata", .dict [("name", .str "web")])]) =
      .ok ("unchanged", "unchanged") :=
  C5_create_conflict_unchanged
    ⟨[], .apiErr 409 "Conflict", .ok, .noSchema, .timeoutExpired⟩
    _ _ "Deployment" "apps/v1" (.str "web") "Conflict"
    rfl (by simp [typedKinds]) rfl rfl (by decide) rfl rfl rfl rfl rfl

/-- **C8.**  A manifest with falsy (absent or empty) kind, apiVersion or
metadata.name is rejected with the invalid-manifest error outcome before
the server environment is consulted: the result is the same for every
`ApiEnv`, so no exists-check, create or patch call can have been made. -/
theorem C8_invalid_manifest (env env' : ApiEnv) (dl ml : List (String × Val))
    (hmeta : (lookup dl "metadata").getD (.dict []) = .dict ml)
    (hinvalid : (truthy ((lookup dl "kind").getD .null) &&
      truthy ((lookup dl "apiVersion").getD .null) &&
      truthy ((lookup ml "name").getD .null)) = false) :
    applyResource env (.dict dl) = .ok ("error", "Invalid manifest: missing required fields") ∧
    applyResource env (.dict dl) = applyResource env' (.dict dl) := by
  have hmain : ∀ e : ApiEnv,
      applyResource e (.dict dl) =
        .ok ("error", "Invalid manifest: missing required fields") := by
    intro e
    unfold applyResource
    simp only [Val.getD, Val.get?, hmeta, hinvalid, Bool.not_false, if_true]
  exact ⟨hmain env, (hmain env).trans (hmain env').symm⟩

/-- **C8 witness**: a manifest with an empty kind. -/
theorem C8_invalid_manifest_witness :
    applyResource ⟨[], .ok, .ok, .noSchema, .timeoutExpired⟩
      (.dict [("kind", .str ""), ("apiVersion", .str "v1"),
              ("metadata", .dict [("name", .str "x")])]) =
      .ok ("error", "Invalid manifest: missing required fields") :=
  (C8_invalid_manifest ⟨[], .ok, .ok, .noSchema, .timeoutExpired⟩
    ⟨[], .exc "boom", .exc "boom", .found true, .timeoutExpired⟩
    [("kind", .str ""), ("apiVersion", .str "v1"),
     ("metadata", .dict [("name", .str "x")])]
    [("name", .str "x")] rfl rfl).1

/-- Custom-resource manifest used by the C4 counterexample. -/
def crDoc : Val :=
  .dict [("kind", .str "Database"), ("apiVersion", .str "example.com/v1"),
         ("metadata", .dict [("name", .str "db")])]

/-- **C4, counterexample.**  A resource whose apiVersion group is outside
the typed registry goes through `_apply_custom_resource`, which patches
without any diff check: the first apply creates it, and reapplying the
identical manifest against the state the first apply produced reports
`configured`, not `unchanged`. -/
theorem C4_counterexample :
    applyResource ⟨[], .ok, .ok, .missing true, .timeoutExpired⟩ crDoc =
      .ok ("created", "created") ∧
    applyResource ⟨[], .ok, .ok, .found true, .timeoutExpired⟩ crDoc =
      .ok ("configured", "configured") :=
  ⟨rfl, rfl⟩

/-- **C4 (amended).**  For resources handled by the typed registry the
second pass of an identical batch is `unchanged`: if the live object the
first apply left behind has `data` equal to the desired `data`
(ConfigMap/Secret) or a spec that subset-extends the desired spec (all
other typed kinds — the first apply wrote the desired spec, and the server
may only have added defaulted fields), `_apply_resource` reports
`unchanged`.  Resources routed to the dynamic/custom tier are excluded:
they are re-patched as `configured` (see the counterexample). -/
theorem C4_second_pass_unchanged (env : ApiEnv) (dl ml : List (String × Val))
    (k av : String) (nm cur : Val)
    (hkind : lookup dl "kind" = some (.str k)) (hk : k ∈ typedKinds)
    (hav : lookup dl "apiVersion" = some (.str av)) (havt : truthy (.str av) = true)
    (hroute : (!strContains av "/" || decide (groupOf av ∈ typedGroups)) = true)
    (hmeta : lookup dl "metadata" = some (.dict ml))
    (hname : lookup ml "name" = some nm) (hnm : truthy nm = true)
    (hlive : clusterLookup env.cluster k nm = some cur)
    (hstate : if k = "ConfigMap" ∨ k = "Secret"
      then pyEq ((Val.dict dl).getD "data" (.dict [])) (cur.getD "data" (.dict [])) = true
      else SubsetEq ((Val.dict dl).getD "spec" (.dict [])) (cur.getD "spec" (.dict []))) :
    applyResource env (.dict dl) = .ok ("unchanged", "unchanged") := by
  have hkt : truthy (.str k) = true := by fin_cases hk <;> rfl
  have hch : hasSpecChangedOn k (.dict dl) (some cur) = false := by
    by_cases hcm : k = "ConfigMap" ∨ k = "Secret"
    · have hbeq : (k == "ConfigMap" || k == "Secret") = true := by
        rcases hcm with rfl | rfl <;> rfl
      rw [if_pos hcm] at hstate
      rw [hasSpecChangedOn_data k hbeq, hstate]
      rfl
    · have hbeq : (k == "ConfigMap" || k == "Secret") = false := by
        push_neg at hcm
        simp [hcm.1, hcm.2]
      rw [if_neg hcm] at hstate
      rw [hasSpecChangedOn_generic k hk hbeq,
        (specsEqual_iff_subsetEq _ _).mpr hstate]
      rfl
  rw [applyResource_typed env dl ml k av nm hkind hkt hav havt hroute hmeta hname hnm,
    typedApply_unchanged env k nm _ cur hk hlive hch]

/-- **C4 witness**: a Deployment reapplied against the live object the
first apply produced (desired spec plus a server-defaulted field). -/
theorem C4_second_pass_unchanged_witness :
    applyResource
      ⟨[(("Deployment", .str "web"),
         .dict [("spec", .dict [("replicas", .str "2"),
                                ("progressDeadlineSeconds", .str "600")])])],
        .ok, .ok, .noSchema, .timeoutExpired⟩
      (.dict [("kind", .str "Deployment"), ("apiVersion", .str "apps/v1"),
              ("metadata", .dict [("name", .str "web")]),
              ("spec", .dict [("replicas", .str "2")])]) =
      .ok ("unchanged", "unchanged") :=
  C4_second_pass_unchanged
    ⟨[(("Deployment", .str "web"),
       .dict [("spec", .dict [("replicas", .str "2"),
                              ("progressDeadlineSeconds", .str "600")])])],
      .ok, .ok, .noSchema, .timeoutExpired⟩
    [("kind", .str "Deployment"), ("apiVersion", .str "apps/v1"),
     ("metadata", .dict [("name", .str "web")]),
     ("spec", .dict [("replicas", .str "2")])]
    [("name", .str "web")] "Deployment" "apps/v1" (.str "web")
    (.dict [("spec", .dict [("replicas", .str "2"),
                            ("progressDeadlineSeconds", .str "600")])])
    rfl (by simp [typedKinds]) rfl rfl (by decide) rfl rfl rfl rfl
    (by
      rw [if_neg (by simp)]
      exact (specsEqual_iff_subsetEq _ _).mp rfl)

/-- **C9.**  Every failure of the kubectl fallback yields an error outcome
carrying diagnostic text (never an unhandled fault): a non-zero exit
returns the captured stderr, and a timeout returns the formatted exception
text.  However, the temporary manifest file is unlinked only on the
completed path — on `TimeoutExpired` the exception jumps past
`os.unlink`, so the file is *not* removed. -/
theorem C9_kubectl_failure (kind : String) :
    (∀ (rc : Int) (out err : String), rc ≠ 0 →
      applyViaKubectl (.completed rc out err) kind = ⟨"error", err, true⟩) ∧
    (applyViaKubectl .timeoutExpired kind).status = "error" ∧
    (applyViaKubectl .timeoutExpired kind).tempFileRemoved = false := by
  refine ⟨fun rc out err hrc => ?_, rfl, rfl⟩
  simp only [applyViaKubectl]
  rw [if_neg (by simpa using hrc)]

/-- **C9 witness**: a concrete non-zero exit carries stderr; a timeout is
an error with the temp file left behind. -/
theorem C9_kubectl_failure_witness :
    applyViaKubectl (.completed 1 "" "denied") "Database" = ⟨"error", "denied", true⟩ ∧
    (applyViaKubectl .timeoutExpired "Database").tempFileRemoved = false :=
  ⟨(C9_kubectl_failure "Database").1 1 "" "denied" (by decide),
   (C9_kubectl_failure "Database").2.2⟩

/-- Environment additions are only appended when the key is absent, so a
present binding survives the final loop of `build_context`. -/
theorem lookup_envFold (envConfig : List (String × Val))
    (acc : List (String × Val)) (k : String) (v : Val)
    (h : lookup acc k = some v) :
    lookup (envConfig.foldl
      (fun acc p => if (lookup acc p.1).isSome then acc else acc ++ [p]) acc) k =
      some v := by
  induction envConfig generalizing acc with
  | nil => simpa using h
  | cons p rest ih =>
    simp only [List.foldl_cons]
    by_cases hp : (lookup acc p.1).isSome
    · rw [if_pos hp]; exact ih acc h
    · rw [if_neg hp]
      refine ih _ ?_
      rw [lookup_append, h]

/-- **C7.**  `build_context` resolves the namespace bidirectionally: when
the merged app mapping binds `namespace`, that value becomes the context's
top-level `namespace`; otherwise the environment namespace becomes both the
top-level `namespace` and `app.namespace`. -/
theorem C7_namespace_resolution (inp : AppInputs) (comp : Option Val) :
    (∀ v, lookup (mergedAppDict inp) "namespace" = some v →
      lookup (buildContext inp comp) "namespace" = some v) ∧
    (lookup (mergedAppDict inp) "namespace" = none →
      lookup (buildContext inp comp) "namespace" = some inp.envNamespace ∧
      ∃ l, lookup (buildContext inp comp) "app" = some (.dict l) ∧
        lookup l "namespace" = some inp.envNamespace) := by
  constructor
  · intro v hv
    simp only [buildContext, hv]
    apply lookup_envFold
    cases comp <;> simp [lookup_append, lookup]
  · intro hns
    constructor
    · simp only [buildContext, hns]
      apply lookup_envFold
      cases comp <;> simp [lookup_append, lookup]
    · refine ⟨dset (mergedAppDict inp) "namespace" inp.envNamespace, ?_,
        lookup_dset_self _ _ _⟩
      simp only [buildContext, hns]
      apply lookup_envFold
      cases comp <;> simp [lookup_append, lookup]

/-- **C7 witness**: app `api` in environment `prod`, `app.namespace` unset,
environment namespace `prod-ns`: both the context namespace and
`app.namespace` are `prod-ns`. -/
theorem C7_namespace_resolution_witness :
    lookup (buildContext ⟨"api", "prod", .str "prod-ns", [], .dict [], .dict [], []⟩
        none) "namespace" = some (.str "prod-ns") ∧
    ∃ l, lookup (buildContext ⟨"api", "prod", .str "prod-ns", [], .dict [], .dict [], []⟩
        none) "app" = some (.dict l) ∧
      lookup l "namespace" = some (.str "prod-ns") :=
  (C7_namespace_resolution ⟨"api", "prod", .str "prod-ns", [], .dict [], .dict [], []⟩
    none).2 rfl

/-- Whether one file outcome is tallied under `key`: exceptions under
`"error"`, ordinary results under their status. -/
def outcomeCounts (key : String) (pr : String × Except String (String × String)) : Bool :=
  match pr.2 with
  | .error _ => key == "error"
  | .ok (st, _) => key == st

theorem bump_apply (stats : String → Nat) (st key : String) :
    bump stats st key = stats key + if key == st then 1 else 0 := by
  unfold bump
  by_cases h : key = st
  · subst h; simp
  · have hb : (key == st) = false := beq_eq_false_iff_ne.mpr h
    simp [hb]

theorem processFiles_fold (key : String) :
    ∀ (outs : List (String × Except String (String × String)))
      (acc : (String → Nat) × Bool),
      (outs.foldl fileStep acc).1 key =
        acc.1 key + outs.countP (outcomeCounts key) := by
  intro outs
  induction outs with
  | nil => intro acc; simp
  | cons o rest ih =>
    intro acc
    rw [List.foldl_cons, ih, List.countP_cons]
    have hstep : (fileStep acc o).1 key =
        acc.1 key + if outcomeCounts key o then 1 else 0 := by
      unfold fileStep outcomeCounts
      cases ho : o.2 with
      | error e => exact bump_apply acc.1 "error" key
      | ok r => obtain ⟨st, m⟩ := r; exact bump_apply acc.1 st key
    rw [hstep]
    omega

/-- Per-status tallies of the apply loop: each file contributes to exactly
the counter of its outcome (exceptions to `error`). -/
theorem processFiles_stats (outs : List (String × Except String (String × String)))
    (key : String) :
    (processFiles outs).1 key = outs.countP (outcomeCounts key) := by
  unfold processFiles
  rw [processFiles_fold key outs]
  simp

/-- **C6.**  In a batch of three rendered files where the second raises on
parse, the error counter ends at exactly one, and the first and third
files' outcomes are both tallied under their own statuses — the failure is
resource-local and does not stop the rest of the batch. -/
theorem C6_resource_local_failure (p1 p2 p3 e m1 m3 s1 s3 : String)
    (h1 : s1 ≠ "error") (h3 : s3 ≠ "error") :
    (processFiles [(p1, .ok (s1, m1)), (p2, .error e), (p3, .ok (s3, m3))]).1 "error" = 1 ∧
    1 ≤ (processFiles [(p1, .ok (s1, m1)), (p2, .error e), (p3, .ok (s3, m3))]).1 s1 ∧
    1 ≤ (processFiles [(p1, .ok (s1, m1)), (p2, .error e), (p3, .ok (s3, m3))]).1 s3 := by
  have he1 : ("error" == s1) = false := beq_eq_false_iff_ne.mpr (Ne.symm h1)
  have he3 : ("error" == s3) = false := beq_eq_false_iff_ne.mpr (Ne.symm h3)
  have hb1 : (s1 == "error") = false := beq_eq_false_iff_ne.mpr h1
  have hb3 : (s3 == "error") = false := beq_eq_false_iff_ne.mpr h3
  refine ⟨?_, ?_, ?_⟩ <;> rw [processFiles_stats] <;>
    simp [List.countP_cons, outcomeCounts, he1, he3, hb1, hb3]

/-- **C6 witness**: created / parse error / unchanged. -/
theorem C6_resource_local_failure_witness :
    (processFiles [("a.yaml", .ok ("created", "ok")), ("b.yaml", .error "parse"),
      ("c.yaml", .ok ("unchanged", "ok"))]).1 "error" = 1 ∧
    1 ≤ (processFiles [("a.yaml", .ok ("created", "ok")), ("b.yaml", .error "parse"),
      ("c.yaml", .ok ("unchanged", "ok"))]).1 "created" ∧
    1 ≤ (processFiles [("a.yaml", .ok ("created", "ok")), ("b.yaml", .error "parse"),
      ("c.yaml", .ok ("unchanged", "ok"))]).1 "unchanged" :=
  C6_resource_local_failure "a.yaml" "b.yaml" "c.yaml" "parse" "ok" "ok"
    "created" "unchanged" (by decide) (by decide)

/-- A document the collection loop of `apply_manifest` handles without
raising: it is falsy (skipped), or it is a mapping with mapping-or-absent
metadata whose `_apply_resource` call returns normally. -/
def docProcessable (ap : Val → Except String (String × String)) (d : Val) : Prop :=
  truthy d = true →
    ∃ dl, d = .dict dl ∧
      (∃ ml, (lookup dl "metadata").getD (.dict []) = .dict ml) ∧
      ∃ r, ap d = .ok r

/-- The collection loop succeeds on processable documents and pairs each
truthy document with its `_apply_resource` result, in order. -/
theorem gatherResults_ok (ap : Val → Except String (String × String))
    (docs : List Val) (hp : ∀ d ∈ docs, docProcessable ap d) :
    ∃ rs, gatherResults ap docs = .ok rs ∧
      List.Forall₂ (fun d (r : Val × Val × (String × String)) => ap d = .ok r.2.2)
        (docs.filter (fun d => truthy d)) rs := by
  induction docs with
  | nil => exact ⟨[], rfl, .nil⟩
  | cons d rest ih =>
    obtain ⟨rs, hrs, hfa⟩ := ih fun x hx => hp x (List.mem_cons_of_mem _ hx)
    by_cases ht : truthy d = true
    · obtain ⟨dl, rfl, ⟨ml, hml⟩, r, har⟩ := hp d (by simp) ht
      refine ⟨((lookup dl "kind").getD (.str "Unknown"),
        (lookup ml "name").getD (.str "unknown"), r) :: rs, ?_, ?_⟩
      · simp only [gatherResults, ht, Bool.not_true, Bool.false_eq_true, if_false,
          hml, har, hrs]
      · rw [List.filter_cons_of_pos ht]
        exact .cons har hfa
    · have ht' : truthy d = false := by simpa using ht
      refine ⟨rs, ?_, ?_⟩
      · simp only [gatherResults, ht', Bool.not_false, if_true, hrs]
      · rw [List.filter_cons_of_neg (by simp [ht'])]
        exact hfa

/-- **C10.**  `apply_manifest` reports the aggregate status `configured`
for any file with two or more non-empty documents, whatever each document's
own outcome was, and the batch loop then counts that file once under
`configured`; only a file with exactly one non-empty document reports that
document's own status. -/
theorem C10_multi_doc_configured (ap : Val → Except String (String × String))
    (docs : List Val) (hp : ∀ d ∈ docs, docProcessable ap d) :
    (2 ≤ (docs.filter (fun d => truthy d)).length →
      (∃ msg, applyManifest ap docs = .ok ("configured", msg)) ∧
      ∀ p : String,
        (processFiles [(p, applyManifest ap docs)]).1 "configured" = 1) ∧
    (∀ d st msg, docs.filter (fun d => truthy d) = [d] → ap d = .ok (st, msg) →
      applyManifest ap docs = .ok (st, msg)) := by
  obtain ⟨rs, hrs, hfa⟩ := gatherResults_ok ap docs hp
  have hlen : (docs.filter (fun d => truthy d)).length = rs.length :=
    List.Forall₂.length_eq hfa
  constructor
  · intro h2
    rw [hlen] at h2
    have hagg : ∃ msg, applyManifest ap docs = .ok ("configured", msg) := by
      unfold applyManifest
      rw [hrs]
      match rs, h2 with
      | a :: b :: t, _ => exact ⟨_, rfl⟩
    refine ⟨hagg, fun p => ?_⟩
    obtain ⟨msg, hmsg⟩ := hagg
    rw [hmsg, processFiles_stats]
    simp [outcomeCounts]
  · intro d st msg hfilter har
    rw [hfilter] at hfa
    match rs, hfa with
    | [r], .cons hr .nil =>
      obtain ⟨k', n', r2⟩ := r
      rw [har] at hr
      cases hr
      unfold applyManifest
      rw [hrs]

/-- **C10 witness**: two non-empty documents that both apply `unchanged`
still aggregate to `configured`, and are counted once under `configured`;
a single document reports its own status. -/
theorem C10_multi_doc_configured_witness :
    (∃ msg, applyManifest (fun _ => .ok ("unchanged", "unchanged"))
      [.dict [("a", .str "1")], .dict [("b", .str "2")]] = .ok ("configured", msg)) ∧
    (processFiles [("app.yaml", applyManifest (fun _ => .ok ("unchanged", "unchanged"))
      [.dict [("a", .str "1")], .dict [("b", .str "2")]])]).1 "configured" = 1 := by
  have hp : ∀ d ∈ [Val.dict [("a", Val.str "1")], Val.dict [("b", Val.str "2")]],
      docProcessable (fun _ => .ok ("unchanged", "unchanged")) d := by
    intro d hd _
    rcases List.mem_cons.mp hd with rfl | hd'
    · exact ⟨_, rfl, ⟨[], rfl⟩, _, rfl⟩
    · rcases List.mem_cons.mp hd' with rfl | h
      · exact ⟨_, rfl, ⟨[], rfl⟩, _, rfl⟩
      · cases h
  have h := (C10_multi_doc_configured (fun _ => .ok ("unchanged", "unchanged"))
    [.dict [("a", .str "1")], .dict [("b", .str "2")]] hp).1 (by decide)
  exact ⟨h.1, h.2 "app.yaml"⟩

/-- A parsed document the rollout scan recognises as a Deployment
(`doc.get('kind') == 'Deployment'`, deploy.py:277). -/
def isDeploymentDoc (d : Val) : Bool :=
  match d with
  | .dict dl => (lookup dl "kind").getD .null == Val.str "Deployment"
  | _ => false

/-- A document the rollout scan processes without raising: any mapping
that is not a Deployment, a Deployment mapping carrying `metadata.name`,
or a falsy value. -/
def docClean (d : Val) : Bool :=
  match d with
  | .dict dl =>
    !((lookup dl "kind").getD .null == Val.str "Deployment") ||
      (((lookup dl "metadata").getD .null).get? "name").isSome
  | _ => !truthy d

/-- The `metadata.name` of every Deployment document, in order. -/
def deployNames (docs : List Val) : List Val :=
  docs.filterMap fun d =>
    if isDeploymentDoc d then ((d.get? "metadata").getD .null).get? "name" else none

theorem deployNames_cons (d : Val) (rest : List Val) :
    deployNames (d :: rest) =
      (match (if isDeploymentDoc d then ((d.get? "metadata").getD .null).get? "name"
        else none) with
       | some n => n :: deployNames rest
       | none => deployNames rest) := by
  unfold deployNames
  rw [List.filterMap_cons]
  cases hif : (if isDeploymentDoc d then ((d.get? "metadata").getD .null).get? "name"
    else none) <;> rfl

/-- On clean documents the rollout scan never aborts early: it yields
exactly the names of the Deployment documents. -/
theorem restartNames_eq_deployNames (docs : List Val)
    (h : docs.all docClean = true) :
    restartNamesForDocs docs = deployNames docs := by
  induction docs with
  | nil => rfl
  | cons d rest ih =>
    rw [List.all_cons, Bool.and_eq_true] at h
    obtain ⟨hd, hrest⟩ := h
    rw [deployNames_cons]
    cases d with
    | dict dl =>
      by_cases hk : ((lookup dl "kind").getD .null == Val.str "Deployment") = true
      · have hname : (((lookup dl "metadata").getD .null).get? "name").isSome = true := by
          unfold docClean at hd
          simpa [hk] using hd
        obtain ⟨n, hn⟩ := Option.isSome_iff_exists.mp hname
        have hn' : (((Val.dict dl).get? "metadata").getD Val.null).get? "name" = some n := hn
        simp only [restartNamesForDocs, isDeploymentDoc, hk, if_true, hn, hn']
        exact congrArg _ (ih hrest)
      · have hk' : ((lookup dl "kind").getD .null == Val.str "Deployment") = false := by
          simpa using hk
        simp only [restartNamesForDocs, isDeploymentDoc, hk', Bool.false_eq_true, if_false]
        exact ih hrest
    | null =>
      simpa [restartNamesForDocs, isDeploymentDoc, truthy] using ih hrest
    | str s =>
      have hs : truthy (.str s) = false := by simpa [docClean] using hd
      simp only [restartNamesForDocs, isDeploymentDoc, hs]
      simpa using ih hrest
    | arr l =>
      have hs : truthy (.arr l) = false := by simpa [docClean] using hd
      simp only [restartNamesForDocs, isDeploymentDoc, hs]
      simpa using ih hrest

theorem count_flatMap {α β : Type} [BEq β] (l : List α) (f : α → List β) (b : β) :
    ((l.flatMap f).count b) = (l.map fun a => (f a).count b).sum := by
  induction l with
  | nil => rfl
  | cons a t ih => simp [List.flatMap_cons, List.count_append, ih]

theorem sum_filter_map {α : Type} (P : α → Bool) (g : α → Nat) (l : List α) :
    ((l.filter P).map g).sum = (l.map fun a => if P a then g a else 0).sum := by
  induction l with
  | nil => rfl
  | cons a t ih =>
    by_cases h : P a
    · simp [List.filter_cons, h, ih]
    · simp [List.filter_cons, h, ih]

/-- **C3 (amended).**  When the rollout flag is armed, only files whose
output path contains `"deployment"` (case-insensitively) are scanned:
each Deployment document in such a file receives exactly one
rollout-restart patch per occurrence of its name (provided the scanned
files' documents are clean, so no per-file scan aborts), while Deployment
documents in files without `"deployment"` in their path receive none. -/
theorem C3_rollout_restart_count (batch : List FileEntry) (n : Val)
    (harm : needsRollout batch = true)
    (hclean : ∀ e ∈ batch, strContains (strLower e.path) "deployment" = true →
      e.docs.all docClean = true) :
    (rolloutCalls batch).count n =
      (batch.map fun e =>
        if strContains (strLower e.path) "deployment" then
          (deployNames e.docs).count n
        else 0).sum := by
  unfold rolloutCalls
  rw [harm]
  simp only [if_true]
  rw [count_flatMap, sum_filter_map]
  refine congrArg List.sum (List.map_congr_left fun e he => ?_)
  by_cases hp : strContains (strLower e.path) "deployment" = true
  · rw [if_pos hp, if_pos hp, restartNames_eq_deployNames e.docs (hclean e he hp)]
  · have hp' : strContains (strLower e.path) "deployment" = false := by simpa using hp
    rw [hp']
    simp

/-- **C3 witness**: a changed ConfigMap plus a Deployment in
`deployment.yaml` yields exactly one restart patch for that Deployment. -/
theorem C3_rollout_restart_count_witness :
    (rolloutCalls
      [⟨"api/configmap.yaml", "configured",
        [.dict [("kind", .str "ConfigMap"), ("metadata", .dict [("name", .str "cm")])]]⟩,
       ⟨"api/deployment.yaml", "unchanged",
        [.dict [("kind", .str "Deployment"),
                ("metadata", .dict [("name", .str "web")])]]⟩]).count (.str "web") = 1 :=
  (C3_rollout_restart_count
    [⟨"api/configmap.yaml", "configured",
      [.dict [("kind", .str "ConfigMap"), ("metadata", .dict [("name", .str "cm")])]]⟩,
     ⟨"api/deployment.yaml", "unchanged",
      [.dict [("kind", .str "Deployment"),
              ("metadata", .dict [("name", .str "web")])]]⟩]
    (.str "web") rfl (by decide)).trans (by rfl)

/-- **C3, counterexample.**  The claim promises a restart patch for every
Deployment document in the batch "regardless of the file path", but the
scan only looks inside files whose path contains `"deployment"`: with the
rollout flag armed by `configmap.yaml`, a Deployment document inside
`app.yaml` receives no patch at all. -/
theorem C3_counterexample :
    needsRollout
      [⟨"api/configmap.yaml", "configured",
        [.dict [("kind", .str "ConfigMap"), ("metadata", .dict [("name", .str "cm")])]]⟩,
       ⟨"api/app.yaml", "unchanged",
        [.dict [("kind", .str "Deployment"),
                ("metadata", .dict [("name", .str "web")])]]⟩] = true ∧
    isDeploymentDoc (.dict [("kind", .str "Deployment"),
        ("metadata", .dict [("name", .str "web")])]) = true ∧
    rolloutCalls
      [⟨"api/configmap.yaml", "configured",
        [.dict [("kind", .str "ConfigMap"), ("metadata", .dict [("name", .str "cm")])]]⟩,
       ⟨"api/app.yaml", "unchanged",
        [.dict [("kind", .str "Deployment"),
                ("metadata", .dict [("name", .str "web")])]]⟩] = [] :=
  ⟨rfl, rfl, rfl⟩

end Kdeploy
